import Mathlib

/-!
# Verification of the Field Extraction & Comparable-Matching Engine

Shallow embedding of the core of `MartinPetrov8/real-estate-price-matching`:
the field extractors and ownership classifier of `src/scrapers/kchsi.js`,
the price/floor extractors of `src/scrapers/imot-bg.js`, the comparable
query of `src/db/database.js`, the matching analyzer of
`src/matching/analyzer.js`, and the frontend rating of the site app
(`config.js` / `app.js`).  Strings are modelled as `List Char`, JS numbers
as `ℚ` (all concrete inputs used below are exactly representable, away
from floating-point decision boundaries), and JS `null`/missing values as
`Option`.  Regular-expression cascades are embedded as explicit scanners
with the same leftmost-match, greedy semantics; for each pattern used the
greedy scan is complete (no backtracking can succeed where the greedy
parse fails) because the relevant character classes are disjoint.
-/

set_option allowUnsafeReducibility true
attribute [local semireducible] Rat.add Rat.mul Rat.inv Rat.sub Rat.div

namespace JsNum

/-- JS `Math.round`: round half toward positive infinity. -/
def jsRound (q : ℚ) : ℤ := Rat.floor (q + 1/2)

/-- JS truthiness of a nullable number: `null`/`undefined` and `0` are falsy. -/
def truthyQ : Option ℚ → Bool
  | some v => v ≠ 0
  | none => false

/-- JS truthiness of a nullable string: `null` and `""` are falsy. -/
def truthyS : Option String → Bool
  | some s => s ≠ ""
  | none => false

end JsNum

namespace JsStr

/-- JS `\s` whitespace class (the members that can occur in our inputs). -/
def isJsWs (c : Char) : Bool :=
  c = ' ' || c = '\t' || c = '\n' || c = '\r' || c = '\x0c' || c = '\x0b'

/-- ASCII digit test, as used by the `\d` class. -/
def isDigitCh (c : Char) : Bool := '0' ≤ c && c ≤ '9'

/-- JS `String.prototype.toLowerCase`, restricted to the Latin and Cyrillic
letters that occur in the source's patterns and inputs. -/
def jsToLowerChar (c : Char) : Char :=
  if 'A' ≤ c ∧ c ≤ 'Z' then Char.ofNat (c.toNat + 32)
  else if 'А' ≤ c ∧ c ≤ 'Я' then Char.ofNat (c.toNat + 32)
  else if c = 'Ё' then 'ё'
  else c

/-- Lowercase a whole text (`description.toLowerCase()`). -/
def jsToLower (s : List Char) : List Char := s.map jsToLowerChar

/-- Drop leading JS whitespace (`\s*`). -/
def skipWs (s : List Char) : List Char := s.dropWhile isJsWs

/-- Value of an ASCII digit character. -/
def digitVal (c : Char) : ℕ := c.toNat - 48

/-- JS `parseInt` on an all-digit capture. -/
def parseNatDigits (l : List Char) : ℕ :=
  l.foldl (fun a c => 10 * a + digitVal c) 0

/-- JS `parseFloat` on a capture of shape `digits [.,] digits` after the
comma has been replaced by a dot (`match[1].replace(',', '.')`). -/
def parseDec (intPart fracPart : List Char) : ℚ :=
  (parseNatDigits intPart : ℚ) + (parseNatDigits fracPart : ℚ) / (10 ^ fracPart.length)

/-- Try an anchored matcher at every start position, left to right: the
leftmost-match rule of JS `String.prototype.match`. -/
def firstSome {α : Type} (f : List Char → Option α) : List Char → Option α
  | [] => f []
  | c :: cs =>
    match f (c :: cs) with
    | some r => some r
    | none => firstSome f cs

/-- Boolean variant of `firstSome`: does the anchored test hold anywhere? -/
def scanB (p : List Char → Bool) : List Char → Bool
  | [] => p []
  | c :: cs => p (c :: cs) || scanB p cs

/-- Literal match of `pat` at the start of `s`. -/
def litAt : List Char → List Char → Bool
  | [], _ => true
  | _ :: _, [] => false
  | p :: ps, c :: cs => p = c && litAt ps cs

/-- JS `String.prototype.includes`. -/
def containsSubstr (pat s : List Char) : Bool := scanB (litAt pat) s

/-- Membership of a single character. -/
def containsChar (c : Char) (s : List Char) : Bool := s.any (· = c)

end JsStr

open JsNum JsStr

namespace Kchsi

/-- Constant `TARGET_CITIES` of `src/scrapers/kchsi.js`. -/
def TARGET_CITIES : List String := ["София", "Пловдив", "Варна", "Бургас"]

/-- Embedding of `normalizeCity` of `src/scrapers/kchsi.js`: iterate the entries of
`CITY_MAP` in insertion order and return the first value whose key the
city text `includes`; `null` for falsy input or no hit. -/
def normalizeCity (cityText : List Char) : Option String :=
  if cityText = [] then none
  else if containsSubstr ("гр. София".data) cityText then some "София"
  else if containsSubstr ("гр. Пловдив".data) cityText then some "Пловдив"
  else if containsSubstr ("гр. Варна".data) cityText then some "Варна"
  else if containsSubstr ("гр. Бургас".data) cityText then some "Бургас"
  else if containsSubstr ("София".data) cityText then some "София"
  else if containsSubstr ("Пловдив".data) cityText then some "Пловдив"
  else if containsSubstr ("Варна".data) cityText then some "Варна"
  else if containsSubstr ("Бургас".data) cityText then some "Бургас"
  else none

/-- Anchored `(\d+[.,]\d+)\s*кв\.?м` (first pattern of `extractSqm`). -/
def sqmPat1At (s : List Char) : Option ℚ :=
  let (d1, r1) := s.span isDigitCh
  if d1 = [] then none
  else
    match r1 with
    | p :: r2 =>
      if p = '.' ∨ p = ',' then
        let (d2, r3) := r2.span isDigitCh
        if d2 = [] then none
        else
          match skipWs r3 with
          | 'к' :: 'в' :: rest =>
            match rest with
            | '.' :: 'м' :: _ => some (parseDec d1 d2)
            | 'м' :: _ => some (parseDec d1 d2)
            | _ => none
          | _ => none
      else none
    | [] => none

/-- Anchored `площ[^\d]*(\d+[.,]\d+)` (second pattern of `extractSqm`). -/
def sqmPat2At (s : List Char) : Option ℚ :=
  match s with
  | 'п' :: 'л' :: 'о' :: 'щ' :: rest =>
    let r := rest.dropWhile (fun c => !isDigitCh c)
    let (d1, r1) := r.span isDigitCh
    if d1 = [] then none
    else
      match r1 with
      | p :: r2 =>
        if p = '.' ∨ p = ',' then
          let (d2, _) := r2.span isDigitCh
          if d2 = [] then none else some (parseDec d1 d2)
        else none
      | [] => none
  | _ => none

/-- Anchored `(\d+)\s*кв\.?м` (third pattern of `extractSqm`). -/
def sqmPat3At (s : List Char) : Option ℚ :=
  let (d1, r1) := s.span isDigitCh
  if d1 = [] then none
  else
    match skipWs r1 with
    | 'к' :: 'в' :: rest =>
      match rest with
      | '.' :: 'м' :: _ => some ((parseNatDigits d1 : ℚ))
      | 'м' :: _ => some ((parseNatDigits d1 : ℚ))
      | _ => none
    | _ => none

/-- Embedding of `extractSqm` of `src/scrapers/kchsi.js`: the three `/i` patterns tried
in order, first match wins (the `/i` flag is modelled by lowercasing the
text; digits and punctuation are unaffected). -/
def extractSqm (description : List Char) : Option ℚ :=
  let t := jsToLower description
  match firstSome sqmPat1At t with
  | some v => some v
  | none =>
    match firstSome sqmPat2At t with
    | some v => some v
    | none => firstSome sqmPat3At t

/-- The `numberWords` table of `extractRooms`, in JS object insertion
order (the iteration order of `Object.entries`). -/
def numberWords : List (List Char × ℕ) :=
  [("едно".data, 1), ("една".data, 1), ("един".data, 1),
   ("две".data, 2), ("два".data, 2), ("двустаен".data, 2),
   ("три".data, 3), ("тристаен".data, 3),
   ("четири".data, 4), ("четиристаен".data, 4),
   ("пет".data, 5), ("петстаен".data, 5),
   ("шест".data, 6), ("многостаен".data, 6)]

/-- Anchored `(\d+)\s*[-–]?\s*стаен`. -/
def roomsNumAt (s : List Char) : Option ℕ :=
  let (d1, r1) := s.span isDigitCh
  if d1 = [] then none
  else
    let r2 := skipWs r1
    let r3 := match r2 with
      | c :: r => if c = '-' ∨ c = '–' then r else r2
      | [] => r2
    if litAt ("стаен".data) (skipWs r3) then some (parseNatDigits d1) else none

/-- Anchored `(\d+)\s*стаи`. -/
def roomsStaiAt (s : List Char) : Option ℕ :=
  let (d1, r1) := s.span isDigitCh
  if d1 = [] then none
  else if litAt ("стаи".data) (skipWs r1) then some (parseNatDigits d1) else none

/-- Embedding of `extractRooms` of `src/scrapers/kchsi.js`: word table first (first
contained word wins), then the numeric `-стаен` pattern, then `N стаи`. -/
def extractRooms (description : List Char) : Option ℕ :=
  let dl := jsToLower description
  match numberWords.find? (fun p => containsSubstr p.1 dl) with
  | some p => some p.2
  | none =>
    match firstSome roomsNumAt dl with
    | some n => some n
    | none => firstSome roomsStaiAt dl

/-- Anchored `ет\.?\s*[-–]?\s*(\d+)` (first pattern of `extractFloor`). -/
def floorPat1At (s : List Char) : Option ℕ :=
  match s with
  | 'е' :: 'т' :: rest =>
    let r1 := match rest with
      | '.' :: r => r
      | _ => rest
    let r2 := skipWs r1
    let r3 := match r2 with
      | c :: r => if c = '-' ∨ c = '–' then r else r2
      | [] => r2
    let (d, _) := (skipWs r3).span isDigitCh
    if d = [] then none else some (parseNatDigits d)
  | _ => none

/-- Anchored `етаж\s*[-–]?\s*(\d+)` (second pattern of `extractFloor`). -/
def floorPat2At (s : List Char) : Option ℕ :=
  match s with
  | 'е' :: 'т' :: 'а' :: 'ж' :: rest =>
    let r2 := skipWs rest
    let r3 := match r2 with
      | c :: r => if c = '-' ∨ c = '–' then r else r2
      | [] => r2
    let (d, _) := (skipWs r3).span isDigitCh
    if d = [] then none else some (parseNatDigits d)
  | _ => none

/-- Anchored `на\s*(\d+)[–-]?[ирв]?и?\s*етаж` (third pattern of
`extractFloor`). -/
def floorPat3At (s : List Char) : Option ℕ :=
  match s with
  | 'н' :: 'а' :: rest =>
    let r1 := skipWs rest
    let (d, r2) := r1.span isDigitCh
    if d = [] then none
    else
      let r3 := match r2 with
        | c :: r => if c = '-' ∨ c = '–' then r else r2
        | [] => r2
      let r4 := match r3 with
        | c :: r => if c = 'и' ∨ c = 'р' ∨ c = 'в' then r else r3
        | [] => r3
      let r5 := match r4 with
        | 'и' :: r => r
        | _ => r4
      if litAt ("етаж".data) (skipWs r5) then some (parseNatDigits d) else none
  | _ => none

/-- Embedding of `extractFloor` of `src/scrapers/kchsi.js`: the three `/i` patterns
tried in order over the whole description; the matched number is returned
as-is (`parseInt(match[1])`), with no range check. -/
def extractFloor (description : List Char) : Option ℕ :=
  let dl := jsToLower description
  match firstSome floorPat1At dl with
  | some n => some n
  | none =>
    match firstSome floorPat2At dl with
    | some n => some n
    | none => firstSome floorPat3At dl

/-- Embedding of `extractPropertyType` of `src/scrapers/kchsi.js`: ordered keyword
`includes` checks. -/
def extractPropertyType (description : List Char) : String :=
  let dl := jsToLower description
  if containsSubstr ("апартамент".data) dl || containsSubstr ("жилище".data) dl then "apartment"
  else if containsSubstr ("къща".data) dl then "house"
  else if containsSubstr ("вила".data) dl then "villa"
  else if containsSubstr ("офис".data) dl then "office"
  else if containsSubstr ("магазин".data) dl || containsSubstr ("търговск".data) dl then "commercial"
  else if containsSubstr ("парцел".data) dl || containsSubstr ("земя".data) dl
       || containsSubstr ("нива".data) dl then "land"
  else if containsSubstr ("гараж".data) dl || containsSubstr ("паркомясто".data) dl then "garage"
  else if containsSubstr ("ателие".data) dl then "studio"
  else if containsSubstr ("склад".data) dl then "warehouse"
  else "other"

/-- One word of a `\s+`-separated word pattern matched literally at the
start, then the rest of the pattern after one-or-more whitespace.  The
greedy whitespace skip is complete because pattern words start with
non-whitespace letters. -/
def wordsAt : List (List Char) → List Char → Bool
  | [], _ => true
  | w :: ws, t =>
    litAt w t &&
    (match ws with
     | [] => true
     | _ :: _ =>
       match t.drop w.length with
       | [] => false
       | c :: r => isJsWs c && wordsAt ws (r.dropWhile isJsWs))

/-- Containment of a `w1\s+w2\s+...` word pattern anywhere in the text. -/
def containsWords (ws : List (List Char)) (s : List Char) : Bool :=
  scanB (wordsAt ws) s

/-- Anchored `a\s*\/\s*b` for digit characters `a`, `b`. -/
def fracAt (a b : Char) : List Char → Bool
  | [] => false
  | c :: r =>
    c = a &&
    (match skipWs r with
     | c1 :: r2 =>
       c1 = '/' &&
       (match skipWs r2 with
        | c2 :: _ => c2 = b
        | [] => false)
     | [] => false)

/-- Containment of a `a\s*\/\s*b` fraction pattern anywhere in the text. -/
def containsFrac (a b : Char) (s : List Char) : Bool := scanB (fracAt a b) s

/-- Embedding of `detectPartialOwnership` of `src/scrapers/kchsi.js`: the ordered list
of fraction-specific patterns (numeric `a\s*\/\s*b` forms, the Unicode
glyphs `½`/`¼`, and Bulgarian number-word forms), each tested against the
lowercased description, then the generic `идеална\s+част` catch-all that
yields `"unknown"`, else `null` (the JS guard `if (!description)` also
returns `null` on the empty string). -/
def detectPartialOwnership (description : List Char) : Option String :=
  if description = [] then none
  else
    let dl := jsToLower description
    if containsChar '½' dl || containsFrac '1' '2' dl
       || containsWords ["една".data, "втора".data] dl
       || containsWords ["половин".data, "идеална".data, "част".data] dl then some "1/2"
    else if containsFrac '1' '3' dl || containsWords ["една".data, "трета".data] dl then some "1/3"
    else if containsChar '¼' dl || containsFrac '1' '4' dl
       || containsWords ["една".data, "четвърт".data] dl then some "1/4"
    else if containsFrac '1' '5' dl || containsWords ["една".data, "пета".data] dl then some "1/5"
    else if containsFrac '1' '6' dl || containsWords ["една".data, "шеста".data] dl then some "1/6"
    else if containsFrac '1' '8' dl || containsWords ["една".data, "осма".data] dl then some "1/8"
    else if containsFrac '2' '3' dl || containsWords ["две".data, "трети".data] dl then some "2/3"
    else if containsFrac '3' '4' dl || containsWords ["три".data, "четвърти".data] dl then some "3/4"
    else if containsWords ["идеална".data, "част".data] dl then some "unknown"
    else none

end Kchsi

namespace ImotBg

/-- Constant `BGN_TO_EUR` of `src/scrapers/imot-bg.js` (the value actually in
the code, commented there as "approximate"). -/
def BGN_TO_EUR : ℚ := 51/100

/-- The fixed currency-board peg demanded by the specification:
1 EUR = 1.95583 BGN. -/
def BGN_EUR_PEG : ℚ := 195583/100000

/-- A character of the `[\d,\.]` class. -/
def isNumCls (c : Char) : Bool := isDigitCh c || c = ',' || c = '.'

/-- JS `parseFloat` after `replace(/,/g, '')`: optional integer digits,
optional dot, optional fraction digits; `NaN` (no digits at all) is
modelled as `none`. -/
def parseFloatNoCommas (cap : List Char) : Option ℚ :=
  let c2 := cap.filter (· ≠ ',')
  let (d1, r1) := c2.span isDigitCh
  match r1 with
  | '.' :: r2 =>
    let (d2, _) := r2.span isDigitCh
    if d1 = [] ∧ d2 = [] then none else some (parseDec d1 d2)
  | _ => if d1 = [] then none else some ((parseNatDigits d1 : ℚ))

/-- Anchored `([\d,\.]+)` followed by the literal `EUR` (case-insensitive,
on whitespace-stripped text).  Greedy capture is complete because the
suffix letters are outside the `[\d,\.]` class. -/
def numThenEurAt (s : List Char) : Option (List Char) :=
  let (cap, rest) := s.span isNumCls
  if cap = [] then none
  else if litAt ("eur".data) (jsToLower rest) then some cap else none

/-- Anchored `([\d,\.]+)` followed by `BGN` or `лв` (case-insensitive). -/
def numThenBgnAt (s : List Char) : Option (List Char) :=
  let (cap, rest) := s.span isNumCls
  if cap = [] then none
  else if litAt ("bgn".data) (jsToLower rest) || litAt ("лв".data) (jsToLower rest) then
    some cap
  else none

/-- Anchored bare `([\d,\.]+)`. -/
def numAt (s : List Char) : Option (List Char) :=
  let (cap, _) := s.span isNumCls
  if cap = [] then none else some cap

/-- Embedding of `extractPrice` of `src/scrapers/imot-bg.js`: strip all whitespace,
then try EUR, then BGN/лв (converted with `BGN_TO_EUR = 0.51`), then a
bare number classified as BGN when above 500.  Result is the `{eur, bgn}`
pair; `NaN` outcomes are modelled as `none`. -/
def extractPrice (priceText : List Char) : Option ℚ × Option ℚ :=
  if priceText = [] then (none, none)
  else
    let text := priceText.filter (fun c => !isJsWs c)
    match firstSome numThenEurAt text with
    | some cap =>
      match parseFloatNoCommas cap with
      | some eur => (some eur, some ((jsRound (eur / BGN_TO_EUR) : ℤ) : ℚ))
      | none => (none, none)
    | none =>
      match firstSome numThenBgnAt text with
      | some cap =>
        match parseFloatNoCommas cap with
        | some bgn => (some ((jsRound (bgn * BGN_TO_EUR) : ℤ) : ℚ), some bgn)
        | none => (none, none)
      | none =>
        match firstSome numAt text with
        | some cap =>
          match parseFloatNoCommas cap with
          | some v =>
            if 500 < v then (some ((jsRound (v * BGN_TO_EUR) : ℤ) : ℚ), some v)
            else (none, none)
          | none => (none, none)
        | none => (none, none)

/-- Anchored `(?:ет\.?\s*)?(\d+)\s*[\/от]\s*(\d+)` — note that `[\/от]`
is a character class matching exactly one of `/`, `о`, `т` (not the word
`от`), as written in the source.  Greedy scanning is complete because
digits, whitespace and the class members are pairwise disjoint. -/
def imotFloorPairCore (s : List Char) : Option (ℕ × ℕ) :=
  let (d1, r1) := s.span isDigitCh
  if d1 = [] then none
  else
    match skipWs r1 with
    | c :: r2 =>
      if c = '/' ∨ c = 'о' ∨ c = 'т' then
        let (d2, _) := (skipWs r2).span isDigitCh
        if d2 = [] then none else some (parseNatDigits d1, parseNatDigits d2)
      else none
    | [] => none

/-- The matcher `imotFloorPairCore` with the optional `ет\.?\s*` prefix tried first. -/
def imotFloorPairAt (s : List Char) : Option (ℕ × ℕ) :=
  match s with
  | 'е' :: 'т' :: rest =>
    let r1 := match rest with
      | '.' :: r => r
      | _ => rest
    match imotFloorPairCore (skipWs r1) with
    | some p => some p
    | none => imotFloorPairCore s
  | _ => imotFloorPairCore s

/-- Anchored `ет\.?\s*(\d+)` (the fallback pattern of imot-bg's
`extractFloor`). -/
def imotFloorOnlyAt (s : List Char) : Option ℕ :=
  match s with
  | 'е' :: 'т' :: rest =>
    let r1 := match rest with
      | '.' :: r => r
      | _ => rest
    let (d, _) := (skipWs r1).span isDigitCh
    if d = [] then none else some (parseNatDigits d)
  | _ => none

/-- Embedding of `extractFloor` of `src/scrapers/imot-bg.js`: the floor/total pair
pattern first, then the bare floor pattern; returns
`{floor, totalFloors}`. -/
def extractFloor (text : List Char) : Option ℕ × Option ℕ :=
  if text = [] then (none, none)
  else
    let dl := jsToLower text
    match firstSome imotFloorPairAt dl with
    | some (f, t) => (some f, some t)
    | none =>
      match firstSome imotFloorOnlyAt dl with
      | some f => (some f, none)
      | none => (none, none)

end ImotBg

namespace Analyzer

/-- One `kchsi_properties` row as consumed by `src/matching/analyzer.js`
(the JS field `partial_ownership` is `ownership` here). -/
structure KchsiProperty where
  id : ℕ
  bcpea_id : String
  price_eur : Option ℚ
  city : String
  sqm : Option ℚ
  rooms : Option ℚ
  floor : Option ℚ
  property_type : Option String
  ownership : Option String

/-- One `market_listings` row as consumed by the analyzer. -/
structure MarketListing where
  id : ℕ
  price_eur : Option ℚ
  city : String
  sqm : Option ℚ
  rooms : Option ℚ
  floor : Option ℚ
  property_type : Option String

/-- Constant `CONFIG.SQM_TOLERANCE` of `src/matching/analyzer.js` (±20%). -/
def SQM_TOLERANCE : ℚ := 1/5

/-- Constant `CONFIG.ROOMS_TOLERANCE`. -/
def ROOMS_TOLERANCE : ℚ := 1

/-- Constant `CONFIG.FLOOR_TOLERANCE`. -/
def FLOOR_TOLERANCE : ℚ := 2

/-- Constant `CONFIG.MIN_SIMILARITY_SCORE`. -/
def MIN_SIMILARITY_SCORE : ℚ := 1/2

/-- Constant `CONFIG.MIN_DISCOUNT_PCT`. -/
def MIN_DISCOUNT_PCT : ℚ := 15

/-- Embedding of `calculateSimilarity` of `src/matching/analyzer.js`: weighted factor
accumulation with an early `return 0` when the square-meter difference
exceeds the tolerance, and `score / factors` at the end. -/
def calculateSimilarity (k : KchsiProperty) (m : MarketListing) : ℚ :=
  if k.city ≠ m.city then 0
  else
    let base : Option (ℚ × ℚ) :=
      if truthyQ k.sqm && truthyQ m.sqm then
        let ks := k.sqm.getD 0
        let ms := m.sqm.getD 0
        let d := |ks - ms| / ks
        if d ≤ SQM_TOLERANCE then some ((1 - d / SQM_TOLERANCE) * 3, 3) else none
      else some (0, 0)
    match base with
    | none => 0
    | some (s1, f1) =>
      let sf2 : ℚ × ℚ :=
        if truthyQ k.rooms && truthyQ m.rooms then
          let d := |k.rooms.getD 0 - m.rooms.getD 0|
          if d ≤ ROOMS_TOLERANCE then (s1 + (1 - d / (ROOMS_TOLERANCE + 1)) * 2, f1 + 2)
          else (s1, f1)
        else (s1, f1)
      let sf3 : ℚ × ℚ :=
        if truthyQ k.floor && truthyQ m.floor then
          let d := |k.floor.getD 0 - m.floor.getD 0|
          if d ≤ FLOOR_TOLERANCE then (sf2.1 + (1 - d / (FLOOR_TOLERANCE + 1)), sf2.2 + 1)
          else sf2
        else sf2
      let sf4 : ℚ × ℚ :=
        if truthyS k.property_type && truthyS m.property_type
           && k.property_type = m.property_type then (sf3.1 + 1, sf3.2 + 1)
        else sf3
      if 0 < sf4.2 then sf4.1 / sf4.2 else 0

/-- One element of the `matches` array built by `findMatches`. -/
structure MatchResult where
  kchsi_id : ℕ
  market_id : ℕ
  similarity_score : ℚ
  price_difference_eur : ℤ
  price_difference_pct : ℚ
  market_listing : MarketListing

/-- Embedding of `findMatches` of `src/matching/analyzer.js`: skip listings without a
truthy price or area (and auctions without a truthy price), keep listings
whose similarity reaches `MIN_SIMILARITY_SCORE`, compute the rounded
price differences, and sort by `price_difference_pct` descending. -/
def findMatches (k : KchsiProperty) (ms : List MarketListing) : List MatchResult :=
  let raw := ms.filterMap (fun m =>
    if !truthyQ m.price_eur || !truthyQ m.sqm then none
    else if !truthyQ k.price_eur then none
    else
      let sim := calculateSimilarity k m
      if MIN_SIMILARITY_SCORE ≤ sim then
        let diff := m.price_eur.getD 0 - k.price_eur.getD 0
        let pct := diff / m.price_eur.getD 0 * 100
        some { kchsi_id := k.id, market_id := m.id,
               similarity_score := ((jsRound (sim * 100) : ℤ) : ℚ) / 100,
               price_difference_eur := jsRound diff,
               price_difference_pct := ((jsRound (pct * 10) : ℤ) : ℚ) / 10,
               market_listing := m }
      else none)
  raw.insertionSort (fun a b => b.price_difference_pct ≤ a.price_difference_pct)

/-- Embedding of `getComparableListings` of `src/db/database.js`: market rows of the
same city whose `sqm` lies between `sqm*(1-tolerance)` and
`sqm*(1+tolerance)` (SQL `BETWEEN` excludes NULL `sqm`), ordered by `sqm`
ascending. -/
def getComparableListings (sqm : ℚ) (city : String) (tolerance : ℚ)
    (corpus : List MarketListing) : List MarketListing :=
  let lo := sqm * (1 - tolerance)
  let hi := sqm * (1 + tolerance)
  (corpus.filter (fun m =>
    m.city = city &&
    (match m.sqm with
     | some v => decide (lo ≤ v ∧ v ≤ hi)
     | none => false))).insertionSort (fun a b => a.sqm.getD 0 ≤ b.sqm.getD 0)

/-- The per-auction body of `analyze` in `src/matching/analyzer.js`:
auctions without truthy `sqm`/`price_eur` are skipped; comparables come
from `getComparableListings` with `CONFIG.SQM_TOLERANCE`; the best match
is flagged as a top deal when its `price_difference_pct` reaches
`CONFIG.MIN_DISCOUNT_PCT`. -/
def analyzeAuction (a : KchsiProperty) (corpus : List MarketListing) :
    Option MatchResult :=
  if !truthyQ a.sqm || !truthyQ a.price_eur then none
  else
    let comparables := getComparableListings (a.sqm.getD 0) a.city SQM_TOLERANCE corpus
    match findMatches a comparables with
    | [] => none
    | best :: _ =>
      if MIN_DISCOUNT_PCT ≤ best.price_difference_pct then some best else none

end Analyzer

namespace WebServer

/-- The `ROUND(AVG(price_per_sqm), 0)` aggregate of the `/api/stats`
endpoint in `src/web/server.js` over the listings' `price_per_sqm`
column: the arithmetic mean, not a median (SQLite `ROUND` at the values
used below coincides with rounding half away from zero; all values below
are exact). -/
def avgPricePerSqm (vals : List ℚ) : ℚ :=
  if vals.length = 0 then 0 else vals.sum / (vals.length : ℚ)

end WebServer

namespace Frontend

/-- The rating record produced by `getRating` in the site app
(`config.js`). -/
structure Rating where
  level : String
  label : String
  score : ℚ
  stars : ℕ

/-- Embedding of `getRating` of the site app (`config.js`): negative discounts get the
dedicated `bad` rating; the positive range is bucketed. -/
def getRating (pct : ℚ) : Rating :=
  if pct < 0 then ⟨"bad", "Неблагоприятна", 20, 1⟩
  else if 50 ≤ pct then ⟨"excellent", "Отлична!", 100, 5⟩
  else if 40 ≤ pct then ⟨"great", "Много добра", 90, 4⟩
  else if 30 ≤ pct then ⟨"good", "Добра", 75, 3⟩
  else if 20 ≤ pct then ⟨"fair", "Приемлива", 60, 2⟩
  else ⟨"low", "Стандартна", 40, 1⟩

end Frontend

namespace SpecModel

/-- Modelled from the spec: the normalized property record
(`ExtractedProperty`) consumed by the Bargain Scorer of
`export_deals.py` / `export_deals_v2.py`, which is not under `src/`
(only its callers — the pipeline shell scripts and `run_pipeline.py`
references — and its documentation are). -/
structure XProperty where
  area_sqm : Option ℚ
  city : String
  price_per_sqm : ℚ
  ownership_fraction : Option String
  property_type : String

/-- Modelled from the spec: the `ComparableSet` handed to one scoring
call. -/
structure ComparableSet where
  anchor : XProperty
  members : List XProperty

/-- Modelled from the spec: the `reliability` enum of `DealResult`. -/
inductive Reliability where
  | reliable
  | insufficient_data
  | excluded_partial_ownership
  | excluded_non_residential
deriving DecidableEq

/-- Modelled from the spec: the scoring fragment of `DealResult`. -/
structure DealResult where
  market_central_price_per_sqm : Option ℚ
  deviation_pct : Option ℚ
  bargain_score : Option ℤ
  reliability : Reliability

/-- Modelled from the spec: the `min_comparables` reliability floor
(default 3), documented in `docs/DAILY_PIPELINE.md` ("Require ≥3
comparable listings for discount calculation"). -/
def MIN_COMPARABLES : ℕ := 3

/-- Modelled from the spec: the property types eligible for market
comparison (garage, land, etc. are excluded as non-residential). -/
def residentialTypes : List String := ["apartment", "studio", "house", "villa"]

/-- Median of a list of rationals: middle element of the sorted list, or
the mean of the two middle elements for even length (junk value 0 on the
empty list). -/
def median (l : List ℚ) : ℚ :=
  let s := l.insertionSort (· ≤ ·)
  if s.length % 2 = 1 then s.getD (s.length / 2) 0
  else (s.getD (s.length / 2 - 1) 0 + s.getD (s.length / 2) 0) / 2

/-- Modelled from the spec: `score(comparable_set)`, the Bargain Scorer
of `export_deals.py` (not under `src/`): ownership gate, residential-type
gate, the `MIN_COMPARABLES` floor, then the median-based central price,
the signed `deviation_pct`, and the zero-clamped rounded display
`bargain_score`; `reliable` only when every gate passed. -/
def score (cs : ComparableSet) : DealResult :=
  if cs.anchor.ownership_fraction ≠ none then
    ⟨none, none, none, Reliability.excluded_partial_ownership⟩
  else if cs.anchor.property_type ∉ residentialTypes then
    ⟨none, none, none, Reliability.excluded_non_residential⟩
  else if cs.members.length < MIN_COMPARABLES then
    ⟨none, none, none, Reliability.insufficient_data⟩
  else
    let m := median (cs.members.map (·.price_per_sqm))
    let dev := (m - cs.anchor.price_per_sqm) / m * 100
    ⟨some m, some dev, some (jsRound (max 0 dev)), Reliability.reliable⟩

end SpecModel

namespace Kchsi

/-- A raw listing-page item as produced by `scrapePropertyList` (the city
is the free text scraped from the page). -/
structure RawAuctionItem where
  bcpea_id : String
  city : List Char
  price_eur : Option ℚ
deriving DecidableEq

/-- The city predicate of the filter in `main` of `src/scrapers/kchsi.js`:
`normalized && TARGET_CITIES.includes(normalized)`. -/
def cityFilterPass (p : RawAuctionItem) : Bool :=
  match normalizeCity p.city with
  | some n => TARGET_CITIES.contains n
  | none => false

/-- The filter applied in `main` before any detail scraping, extraction or
storage: `properties.filter(p => ...)`. -/
def filterTargetCities (ps : List RawAuctionItem) : List RawAuctionItem :=
  ps.filter cityFilterPass

/-- The `city` field stored by `main` for a surviving record:
`normalizeCity(prop.city)`. -/
def storedCity (p : RawAuctionItem) : Option String := normalizeCity p.city

/-- The characters a bare cadastral identifier consists of (dotted numeric
sequences, possibly spaced). -/
def cadastralChars : List Char := "0123456789. ".data

end Kchsi

namespace SpecModel

/-- Modelled from the spec: the deviation formula of the Bargain Scorer,
`(market_central_price_per_sqm - anchor.price_per_sqm) /
market_central_price_per_sqm * 100`, with the central price the median of
the members' `price_per_sqm`. -/
def deviationFormula (cs : ComparableSet) : ℚ :=
  (median (cs.members.map (·.price_per_sqm)) - cs.anchor.price_per_sqm) /
    median (cs.members.map (·.price_per_sqm)) * 100

end SpecModel

section ConcreteInputs

/-- Scenario A text. -/
def scenarioA : List Char := "Апартамент, тристаен, 85.50 кв.м, ет. 3 от 6".data

/-- Scenario B text (a specific `1/4` ideal-share sale). -/
def scenarioBText : List Char :=
  "продава 1/4 идеална част от апартамент, 112.15 кв.м".data

/-- A generic ideal-share text with no specific fraction. -/
def genericIdealText : List Char := "продава идеална част от апартамент".data

/-- A quarter-share auction (cf. the QA note on property 85435): truthy
price and area, partial ownership `1/4` detected from its description. -/
def auctionQuarterShare : Analyzer.KchsiProperty :=
  ⟨1, "85435", some 20000, "София", some 100, none, none, some "apartment", some "1/4"⟩

/-- The description of `auctionQuarterShare`. -/
def quarterShareDesc : List Char :=
  "продава се 1/4 идеална част от апартамент 100 кв.м".data

/-- A single whole-ownership market listing in the same city and size. -/
def listingSofia160k : Analyzer.MarketListing :=
  ⟨10, some 160000, "София", some 100, none, none, some "apartment"⟩

/-- Scenario C anchor: area 80, city София. -/
def auctionScenarioC : Analyzer.KchsiProperty :=
  ⟨2, "70001", some 50000, "София", some 80, none, none, some "apartment", none⟩

/-- Scenario C corpus: exactly two valid comparables. -/
def corpusScenarioC : List Analyzer.MarketListing :=
  [⟨21, some 100000, "София", some 80, none, none, some "apartment"⟩,
   ⟨22, some 100000, "София", some 80, none, none, some "apartment"⟩]

/-- Scenario D anchor: price 80000 over 100 m², i.e. 800 €/m². -/
def auctionScenarioD : Analyzer.KchsiProperty :=
  ⟨3, "70002", some 80000, "София", some 100, none, none, some "apartment", none⟩

/-- Scenario D corpus: five 100 m² comparables whose €/m² values are
1000, 1500, 1600, 1700, 3000 — median 1600, mean 1760. -/
def corpusScenarioD : List Analyzer.MarketListing :=
  [⟨31, some 100000, "София", some 100, none, none, some "apartment"⟩,
   ⟨32, some 150000, "София", some 100, none, none, some "apartment"⟩,
   ⟨33, some 160000, "София", some 100, none, none, some "apartment"⟩,
   ⟨34, some 170000, "София", some 100, none, none, some "apartment"⟩,
   ⟨35, some 300000, "София", some 100, none, none, some "apartment"⟩]

/-- The €/m² values of `corpusScenarioD`. -/
def ppsScenarioD : List ℚ :=
  corpusScenarioD.map (fun m => m.price_eur.getD 0 / m.sqm.getD 0)

/-- An anchor used to probe the sanity band: truthy price over 100 m². -/
def auctionBandProbe : Analyzer.KchsiProperty :=
  ⟨6, "70003", some 500, "София", some 100, none, none, none, none⟩

/-- A data-entry-error market listing: 1000 € for 100 m², i.e. 10 €/m²,
far below the €200–€5,000/m² sanity band. -/
def listingTenPerSqm : Analyzer.MarketListing :=
  ⟨60, some 1000, "София", some 100, none, none, none⟩

/-- Scenario E comparable set: anchor at 2000 €/m² against members whose
median €/m² is 1600. -/
def csScenarioE : SpecModel.ComparableSet :=
  ⟨⟨some 100, "София", 2000, none, "apartment"⟩,
   [⟨some 100, "София", 1000, none, "apartment"⟩,
    ⟨some 100, "София", 1500, none, "apartment"⟩,
    ⟨some 100, "София", 1600, none, "apartment"⟩,
    ⟨some 100, "София", 1700, none, "apartment"⟩,
    ⟨some 100, "София", 3000, none, "apartment"⟩]⟩

/-- Scenario C comparable set for the spec-modelled scorer: two members. -/
def csScenarioC : SpecModel.ComparableSet :=
  ⟨⟨some 80, "София", 625, none, "apartment"⟩,
   [⟨some 80, "София", 1250, none, "apartment"⟩,
    ⟨some 80, "София", 1250, none, "apartment"⟩]⟩

/-- A raw listing item whose scraped city text normalizes into the
whitelist. -/
def rawSofiaItem : Kchsi.RawAuctionItem :=
  ⟨"90001", "гр. София, ул. Витоша 1".data, some 120000⟩

end ConcreteInputs

section ScannerLemmas

theorem litAt_subset {p t : List Char} (h : JsStr.litAt p t = true) :
    ∀ x ∈ p, x ∈ t := by
  induction p generalizing t with
  | nil => intro x hx; exact absurd hx (List.not_mem_nil x)
  | cons a ps ih =>
    intro x hx
    cases t with
    | nil => simp [JsStr.litAt] at h
    | cons c cs =>
      simp only [JsStr.litAt, Bool.and_eq_true, decide_eq_true_eq] at h
      rcases List.mem_cons.mp hx with rfl | hx'
      · exact h.1 ▸ List.mem_cons_self _ _
      · exact List.mem_cons_of_mem _ (ih h.2 x hx')

theorem scanB_split {p : List Char → Bool} {s : List Char}
    (h : JsStr.scanB p s = true) : ∃ u t, s = u ++ t ∧ p t = true := by
  induction s with
  | nil => exact ⟨[], [], rfl, h⟩
  | cons c cs ih =>
    simp only [JsStr.scanB, Bool.or_eq_true] at h
    rcases h with h | h
    · exact ⟨[], c :: cs, rfl, h⟩
    · obtain ⟨u, t, hsplit, hp⟩ := ih h
      exact ⟨c :: u, t, by simp [hsplit], hp⟩

theorem skipWs_mem {x : Char} {l : List Char} (h : x ∈ JsStr.skipWs l) : x ∈ l := by
  induction l with
  | nil => simp [JsStr.skipWs] at h
  | cons c cs ih =>
    by_cases hc : JsStr.isJsWs c = true
    · simp only [JsStr.skipWs, List.dropWhile_cons, hc, if_true] at h
      exact List.mem_cons_of_mem _ (ih h)
    · simp only [JsStr.skipWs, List.dropWhile_cons, hc] at h
      simpa using h

theorem fracAt_slash {a b : Char} {t : List Char}
    (h : Kchsi.fracAt a b t = true) : '/' ∈ t := by
  cases t with
  | nil => simp [Kchsi.fracAt] at h
  | cons c r =>
    simp only [Kchsi.fracAt, Bool.and_eq_true] at h
    cases hsk : JsStr.skipWs r with
    | nil => rw [hsk] at h; simp at h
    | cons c1 r2 =>
      rw [hsk] at h
      simp only [Bool.and_eq_true, decide_eq_true_eq] at h
      have hc1 : c1 ∈ JsStr.skipWs r := hsk ▸ List.mem_cons_self _ _
      exact List.mem_cons_of_mem _ (h.2.1 ▸ skipWs_mem hc1)

theorem containsFrac_false {s : List Char} (hn : '/' ∉ s) (a b : Char) :
    Kchsi.containsFrac a b s = false := by
  cases h : Kchsi.containsFrac a b s
  · rfl
  · obtain ⟨u, t, rfl, hp⟩ := scanB_split h
    exact absurd (List.mem_append_right u (fracAt_slash hp)) hn

theorem containsChar_false {c : Char} {s : List Char} (hn : c ∉ s) :
    JsStr.containsChar c s = false := by
  cases h : JsStr.containsChar c s
  · rfl
  · simp only [JsStr.containsChar, List.any_eq_true, decide_eq_true_eq] at h
    obtain ⟨x, hx, rfl⟩ := h
    exact absurd hx hn

theorem containsWords_false {x : Char} {w : List Char} {s : List Char}
    (hx : x ∈ w) (hn : x ∉ s) (ws : List (List Char)) :
    Kchsi.containsWords (w :: ws) s = false := by
  cases h : Kchsi.containsWords (w :: ws) s
  · rfl
  · obtain ⟨u, t, rfl, hp⟩ := scanB_split h
    simp only [Kchsi.wordsAt, Bool.and_eq_true] at hp
    exact absurd (List.mem_append_right u (litAt_subset hp.1 x hx)) hn

theorem jsToLowerChar_fixed {c : Char} (hc : c ∈ Kchsi.cadastralChars) :
    JsStr.jsToLowerChar c = c := by
  simp only [Kchsi.cadastralChars, List.mem_cons, String.data] at hc
  rcases hc with rfl | rfl | rfl | rfl | rfl | rfl | rfl | rfl | rfl | rfl | rfl | rfl | h
  all_goals first
  | decide
  | exact absurd h (List.not_mem_nil c)

theorem jsToLower_fixed {s : List Char} (h : ∀ c ∈ s, c ∈ Kchsi.cadastralChars) :
    JsStr.jsToLower s = s := by
  induction s with
  | nil => rfl
  | cons c cs ih =>
    simp only [JsStr.jsToLower, List.map_cons]
    rw [jsToLowerChar_fixed (h c (List.mem_cons_self _ _))]
    have := ih (fun x hx => h x (List.mem_cons_of_mem _ hx))
    simpa [JsStr.jsToLower] using this

end ScannerLemmas

section ClaimTheorems

/-- C1: The spec invariant says properties with a non-null
`ownership_fraction` are never eligible as comparables or as discount
subjects.  Evaluated on a quarter-share auction (the shape of the QA
note on property 85435): `detectPartialOwnership` does flag the
description as `1/4`, but the analyzer pipeline
(`getComparableListings` → `findMatches` → the `analyze` deal gate)
never consults the ownership field and computes an 87.5% discount deal
for it — the code contradicts the invariant and the repository's own QA
documentation. -/
theorem c1_ownership_fraction_deal_computed :
    Kchsi.detectPartialOwnership quarterShareDesc = some "1/4" ∧
    auctionQuarterShare.ownership = some "1/4" ∧
    (Analyzer.analyzeAuction auctionQuarterShare [listingSofia160k]).map
      (fun r => (r.market_id, r.price_difference_pct)) = some (10, 175/2) := by
  refine ⟨by decide, rfl, by decide⟩

/-- C2: The spec requires `reliability = insufficient_data` and a null
score below `MIN_COMPARABLES = 3` comparables.  Evaluated on the
Scenario C shape (anchor of 80 m² in София with exactly 2 valid
comparables): the analyzer of `src/matching/analyzer.js` computes and
presents a 50% discount deal anyway — the code contradicts the floor
documented in `docs/DAILY_PIPELINE.md`. -/
theorem c2_two_comparables_deal_presented :
    (Analyzer.getComparableListings 80 "София" Analyzer.SQM_TOLERANCE
      corpusScenarioC).length = 2 ∧
    2 < SpecModel.MIN_COMPARABLES ∧
    (Analyzer.analyzeAuction auctionScenarioC corpusScenarioC).map
      (·.price_difference_pct) = some 50 := by
  refine ⟨by decide, by decide, by decide⟩

/-- C3: The spec requires the market central price to be the median of
the comparables' €/m² (Scenario D: anchor 800 €/m² against median 1600
gives deviation 50).  Evaluated on the Scenario D corpus: the median of
the five €/m² values is 1600 and the spec formula gives 50, but the
analyzer of `src/matching/analyzer.js` reports the single best-matching
listing's price difference (73.3) instead, and the `/api/stats` endpoint
aggregates with the mean (1760), not the median. -/
theorem c3_best_match_not_median :
    SpecModel.median ppsScenarioD = 1600 ∧
    WebServer.avgPricePerSqm ppsScenarioD = 1760 ∧
    ((1600 - 800 : ℚ) / 1600 * 100) = 50 ∧
    (Analyzer.analyzeAuction auctionScenarioD corpusScenarioD).map
      (·.price_difference_pct) = some (733/10) ∧
    (733/10 : ℚ) ≠ 50 := by
  refine ⟨by decide, by decide, by decide, by decide, by decide⟩

/-- C4: The spec requires BGN prices to be converted with the fixed
currency-board peg (divide by 1.95583), not the arbitrary 0.51
multiplier.  Evaluated on `"100000 лв"`: `extractPrice` of
`src/scrapers/imot-bg.js` multiplies by `BGN_TO_EUR = 0.51` and returns
€51,000, while the peg gives €51,129 — and the constant itself differs
from the peg's reciprocal. -/
theorem c4_bgn_conversion_uses_051 :
    ImotBg.extractPrice ("100000 лв".data) = (some 51000, some 100000) ∧
    JsNum.jsRound ((100000 : ℚ) / ImotBg.BGN_EUR_PEG) = 51129 ∧
    ImotBg.BGN_TO_EUR ≠ 1 / ImotBg.BGN_EUR_PEG ∧
    (51000 : ℚ) ≠ 51129 := by
  refine ⟨by decide, by decide, by decide, by decide⟩

/-- C5: For every comparable set that passes the ownership, type and
count gates, the scorer's `deviation_pct` carries the exact signed
formula value (never clamped), while `bargain_score` is the display
value `round(max(0, deviation_pct))`; when the deviation is negative the
badge is 0 but the signed field is preserved, and the site app's
`getRating` (config.js) branches on the negative value with the
dedicated "bad" rating rather than hiding it. -/
theorem c5_deviation_signed_bargain_clamped (cs : SpecModel.ComparableSet)
    (h1 : cs.anchor.ownership_fraction = none)
    (h2 : cs.anchor.property_type ∈ SpecModel.residentialTypes)
    (h3 : SpecModel.MIN_COMPARABLES ≤ cs.members.length) :
    (SpecModel.score cs).deviation_pct = some (SpecModel.deviationFormula cs) ∧
    (SpecModel.score cs).bargain_score =
      some (JsNum.jsRound (max 0 (SpecModel.deviationFormula cs))) ∧
    (SpecModel.deviationFormula cs < 0 →
      (SpecModel.score cs).bargain_score = some 0 ∧
      (Frontend.getRating (SpecModel.deviationFormula cs)).level = "bad") := by
  have g1 : ¬(cs.anchor.ownership_fraction ≠ none) := by simp [h1]
  have g2 : ¬(cs.anchor.property_type ∉ SpecModel.residentialTypes) := by simp [h2]
  have g3 : ¬(cs.members.length < SpecModel.MIN_COMPARABLES) := not_lt.mpr h3
  have hsc : SpecModel.score cs =
      ⟨some (SpecModel.median (cs.members.map (·.price_per_sqm))),
       some (SpecModel.deviationFormula cs),
       some (JsNum.jsRound (max 0 (SpecModel.deviationFormula cs))),
       SpecModel.Reliability.reliable⟩ := by
    unfold SpecModel.score
    rw [if_neg g1, if_neg g2, if_neg g3]
    rfl
  refine ⟨by rw [hsc], by rw [hsc], fun hneg => ⟨?_, ?_⟩⟩
  · rw [hsc]
    have hmax : max 0 (SpecModel.deviationFormula cs) = 0 := max_eq_left hneg.le
    rw [hmax]
    show some (JsNum.jsRound 0) = (some 0 : Option ℤ)
    decide
  · unfold Frontend.getRating
    rw [if_pos hneg]

/-- Witness for C5 at the Scenario E comparable set (anchor 2000 €/m²
against median 1600): the hypotheses hold, the deviation formula
evaluates to −25 (reported signed), the displayed badge is 0, and the
frontend rating for −25 is the "bad" level. -/
theorem c5_scenario_e_witness :
    csScenarioE.anchor.ownership_fraction = none ∧
    csScenarioE.anchor.property_type ∈ SpecModel.residentialTypes ∧
    SpecModel.MIN_COMPARABLES ≤ csScenarioE.members.length ∧
    SpecModel.deviationFormula csScenarioE = -25 ∧
    (SpecModel.score csScenarioE).deviation_pct =
      some (SpecModel.deviationFormula csScenarioE) ∧
    (SpecModel.score csScenarioE).bargain_score = some 0 ∧
    (Frontend.getRating (SpecModel.deviationFormula csScenarioE)).level = "bad" :=
  ⟨rfl, by decide, by decide, by decide,
   (c5_deviation_signed_bargain_clamped csScenarioE rfl (by decide) (by decide)).1,
   ((c5_deviation_signed_bargain_clamped csScenarioE rfl (by decide)
      (by decide)).2.2 (by decide)).1,
   ((c5_deviation_signed_bargain_clamped csScenarioE rfl (by decide)
      (by decide)).2.2 (by decide)).2⟩

/-- C6: The spec's filtering pipeline includes a €200–€5,000/m² sanity
band.  Evaluated on a 10 €/m² data-entry-error listing in the anchor's
city and size range: the selector of `src/db/database.js` +
`src/matching/analyzer.js` returns and matches it — no price-per-m²
band is enforced anywhere in that pipeline. -/
theorem c6_sanity_band_not_enforced :
    (Analyzer.findMatches auctionBandProbe
      (Analyzer.getComparableListings 100 "София" Analyzer.SQM_TOLERANCE
        [listingTenPerSqm])).map (fun r => r.market_id) = [60] ∧
    listingTenPerSqm.price_eur.getD 0 / listingTenPerSqm.sqm.getD 0 = 10 ∧
    ¬(200 ≤ (10 : ℚ)) := by
  refine ⟨by decide, by decide, by decide⟩

/-- C7: `detectPartialOwnership` tries fraction-specific patterns before
the generic ideal-share catch-all; a text made only of digits, dots and
spaces (a bare cadastral identifier) can never produce an ownership
fraction, because every pattern requires a slash, a fraction glyph or a
Bulgarian number word; a generic ideal-share text with no fraction
yields `"unknown"`, and a specific fraction wins over the generic
catch-all. -/
theorem c7_ownership_requires_fraction_token (s : List Char)
    (h : ∀ c ∈ s, c ∈ Kchsi.cadastralChars) :
    Kchsi.detectPartialOwnership s = none ∧
    Kchsi.detectPartialOwnership genericIdealText = some "unknown" ∧
    Kchsi.detectPartialOwnership scenarioBText = some "1/4" := by
  refine ⟨?_, by decide, by decide⟩
  have habs : ∀ x : Char, x ∉ Kchsi.cadastralChars → x ∉ s :=
    fun x hx hmem => hx (h x hmem)
  have hslash : '/' ∉ s := habs '/' (by decide)
  have hhalf : '½' ∉ s := habs '½' (by decide)
  have hquarter : '¼' ∉ s := habs '¼' (by decide)
  have he : 'е' ∉ s := habs 'е' (by decide)
  have hp : 'п' ∉ s := habs 'п' (by decide)
  have hd : 'д' ∉ s := habs 'д' (by decide)
  have ht : 'т' ∉ s := habs 'т' (by decide)
  have hi : 'и' ∉ s := habs 'и' (by decide)
  by_cases hs : s = []
  · simp [Kchsi.detectPartialOwnership, hs]
  · have hlow : JsStr.jsToLower s = s := jsToLower_fixed h
    have hfrac : ∀ a b, Kchsi.containsFrac a b s = false :=
      fun a b => containsFrac_false hslash a b
    have hw1 : ∀ ws, Kchsi.containsWords ("една".data :: ws) s = false :=
      fun ws => containsWords_false (by decide) he ws
    have hw2 : ∀ ws, Kchsi.containsWords ("половин".data :: ws) s = false :=
      fun ws => containsWords_false (by decide) hp ws
    have hw3 : ∀ ws, Kchsi.containsWords ("две".data :: ws) s = false :=
      fun ws => containsWords_false (by decide) hd ws
    have hw4 : ∀ ws, Kchsi.containsWords ("три".data :: ws) s = false :=
      fun ws => containsWords_false (by decide) ht ws
    have hw5 : ∀ ws, Kchsi.containsWords ("идеална".data :: ws) s = false :=
      fun ws => containsWords_false (by decide) hi ws
    simp only [Kchsi.detectPartialOwnership, if_neg hs, hlow, hfrac, hw1, hw2,
      hw3, hw4, hw5, containsChar_false hhalf, containsChar_false hquarter,
      Bool.or_false, Bool.false_or, Bool.or_self]
    rfl

/-- Witness for C7: a real cadastral identifier is classified as full
ownership, the generic ideal-share text as `"unknown"`, and the Scenario
B text as the specific fraction `1/4`. -/
theorem c7_cadastral_witness :
    Kchsi.detectPartialOwnership ("68134.1505.2367.8.1".data) = none ∧
    Kchsi.detectPartialOwnership genericIdealText = some "unknown" ∧
    Kchsi.detectPartialOwnership scenarioBText = some "1/4" :=
  c7_ownership_requires_fraction_token ("68134.1505.2367.8.1".data) (by decide)

/-- C8: Scenario A (`"Апартамент, тристаен, 85.50 кв.м, ет. 3 от 6"`)
evaluated on the extractors: area, rooms, floor and property type come
out as the spec says, but no extractor produces `total_floors = 6` — the
КЧСИ scraper has no total-floors extraction at all, and imot-bg's
`extractFloor` pair pattern uses the character class `[\/от]`, which
matches a single character and therefore cannot match the `"3 от 6"`
form its own comment promises; it falls back to the bare floor pattern
and returns `totalFloors = null`. -/
theorem c8_scenario_a_fields :
    Kchsi.extractSqm scenarioA = some (171/2) ∧
    Kchsi.extractRooms scenarioA = some 3 ∧
    Kchsi.extractFloor scenarioA = some 3 ∧
    Kchsi.extractPropertyType scenarioA = "apartment" ∧
    ImotBg.extractFloor scenarioA = (some 3, none) := by
  refine ⟨by decide, by decide, by decide, by decide, by decide⟩

/-- C9: The spec requires a 1–30 sanity bound on extracted floors.
Evaluated on `"ет. 99"`: both floor extractors under `src/` return 99
unchanged — neither applies any range check (the bound exists only in
the Python `bcpea_scraper.py`, which is not part of `src/`). -/
theorem c9_floor_no_range_bound :
    Kchsi.extractFloor ("ет. 99".data) = some 99 ∧
    ImotBg.extractFloor ("ет. 99".data) = (some 99, none) ∧
    ¬(99 ≤ 30) := by
  refine ⟨by decide, by decide, by decide⟩

set_option maxHeartbeats 1000000 in
/-- C10: `normalizeCity` only ever returns one of the four whitelisted
city names or null, and the filter applied in `main` before any detail
scraping, extraction or storage keeps exactly the records whose city
normalizes into the whitelist, storing the normalized name. -/
theorem c10_city_whitelist (s : List Char) (ps : List Kchsi.RawAuctionItem)
    (p : Kchsi.RawAuctionItem) (hp : p ∈ Kchsi.filterTargetCities ps) :
    (Kchsi.normalizeCity s = none ∨
      ∃ n ∈ Kchsi.TARGET_CITIES, Kchsi.normalizeCity s = some n) ∧
    ∃ n ∈ Kchsi.TARGET_CITIES, Kchsi.storedCity p = some n := by
  constructor
  · unfold Kchsi.normalizeCity
    split_ifs <;> simp [Kchsi.TARGET_CITIES]
  · have hpass : Kchsi.cityFilterPass p = true :=
      (List.mem_filter.mp hp).2
    unfold Kchsi.cityFilterPass at hpass
    cases hcity : Kchsi.normalizeCity p.city with
    | none => rw [hcity] at hpass; simp at hpass
    | some n =>
      rw [hcity] at hpass
      refine ⟨n, ?_, hcity⟩
      simpa [List.contains] using List.mem_of_elem_eq_true hpass

/-- Witness for C10: a village city text normalizes to null, while the
record with scraped city `"гр. София, ул. Витоша 1"` survives the filter
with stored city София. -/
theorem c10_city_whitelist_witness :
    (Kchsi.normalizeCity ("с. Лозен".data) = none ∨
      ∃ n ∈ Kchsi.TARGET_CITIES, Kchsi.normalizeCity ("с. Лозен".data) = some n) ∧
    ∃ n ∈ Kchsi.TARGET_CITIES, Kchsi.storedCity rawSofiaItem = some n :=
  c10_city_whitelist ("с. Лозен".data) [rawSofiaItem] rawSofiaItem (by decide)

end ClaimTheorems
